import Mathlib

/-!
Verification development for the `myjql` single-table B+ tree engine
(`src/myjql.c`).  The engine is shallowly embedded: pages are records of
the header fields plus the 16-byte cell area, keys and cells are byte
lists (`List Nat`, one entry per byte), and every C function of the
engine is translated to a Lean function of the same name (camel-cased).
Loops that the C code bounds only by data (binary search, descent,
merge recursion, the delete loop) take an explicit fuel argument; the
fuel is always large enough on every executed path shown here.

Modelling conventions, stated once:
* `malloc`-fresh page bytes are modelled as zero (the cell list's
  missing suffix reads as zero bytes via `getD`); the C spec text makes
  the same assumption ("unread bytes remain zero").
* `Cursor.endOfTable` is left uninitialized by the C `leaf_node_find`;
  every caller treats it as false on the paths modelled here, so the
  model sets it to false there.
* `get_page` on an already-resident page is a pure read; pages are
  allocated exactly at the `get_page(get_unused_page_num())` sites.
-/

set_option maxRecDepth 100000

namespace Myjql

/-- One byte of a C string / page, 0..255. -/
abbrev Byte := Nat

/-- The NUL-padded 12-byte key buffer obtained from a shorter C string:
`strcpy` into a zeroed fixed buffer. -/
def pad12 (l : List Byte) : List Byte :=
  (l ++ List.replicate 12 0).take 12

/-- C `strcmp` on NUL-terminated byte strings (unsigned-char compare,
stopping at the first difference or at a NUL on both sides). -/
def cstrcmp : List Byte → List Byte → Ordering
  | [], [] => .eq
  | [], b :: _ => if b = 0 then .eq else .lt
  | a :: _, [] => if a = 0 then .eq else .gt
  | a :: as, b :: bs =>
      if a = b then (if a = 0 then .eq else cstrcmp as bs)
      else if a < b then .lt else .gt

/-- Little-endian 4-byte encoding of a `uint32_t` (the bytes `memcpy`
writes for the `a` column). -/
def le4 (n : Nat) : List Byte :=
  [n % 256, n / 256 % 256, n / 65536 % 256, n / 16777216 % 256]

/-- Decode 4 little-endian bytes back into a `uint32_t` value. -/
def fromLE4 (l : List Byte) : Nat :=
  l.getD 0 0 + 256 * l.getD 1 0 + 65536 * l.getD 2 0 + 16777216 * l.getD 3 0

/-- A row of the single table: `a: uint32_t`, `b: char[12]`
(`COLUMN_B_SIZE + 1` bytes, NUL-padded). -/
structure Row where
  a : Nat
  b : List Byte
  deriving Repr, DecidableEq

/-- `serialize_row`: 12 bytes of `b` at offset 0, then the 4
little-endian bytes of `a` at offset 12 (`myjql.c:414`). -/
def serializeRow (r : Row) : List Byte :=
  pad12 r.b ++ le4 r.a

/-- `deserialize_row`: read `b` from offset 0 (12 bytes) and `a` from
offset 12 (4 bytes) (`myjql.c:421`). -/
def deserializeRow (src : List Byte) : Row :=
  { a := fromLE4 ((src.drop 12).take 4), b := src.take 12 }

/-! Layout constants, translated definition by definition from
`myjql.c:429-471`.  All divisions are C unsigned divisions = `Nat`
floor divisions. -/

def PAGE_SIZE : Nat := 4096
def NODE_TYPE_SIZE : Nat := 1
def IS_ROOT_SIZE : Nat := 1
def PARENT_POINTER_SIZE : Nat := 4
def COMMON_NODE_HEADER_SIZE : Nat := NODE_TYPE_SIZE + IS_ROOT_SIZE + PARENT_POINTER_SIZE
def LEAF_NODE_NUM_CELLS_SIZE : Nat := 4
def LEAF_NODE_NEXT_LEAF_SIZE : Nat := 4
def LEAF_NODE_HEADER_SIZE : Nat :=
  COMMON_NODE_HEADER_SIZE + LEAF_NODE_NUM_CELLS_SIZE + LEAF_NODE_NEXT_LEAF_SIZE
def LEAF_NODE_KEY_SIZE : Nat := 12
def LEAF_NODE_VALUE_SIZE : Nat := 4
def LEAF_NODE_CELL_SIZE : Nat := LEAF_NODE_KEY_SIZE + LEAF_NODE_VALUE_SIZE
def LEAF_NODE_SPACE_FOR_CELLS : Nat := PAGE_SIZE - LEAF_NODE_HEADER_SIZE
def LEAF_NODE_MAX_CELLS : Nat := LEAF_NODE_SPACE_FOR_CELLS / LEAF_NODE_CELL_SIZE - 1
def LEAF_NODE_LEFT_SPLIT_COUNT : Nat := (LEAF_NODE_MAX_CELLS + 1) / 2
def LEAF_NODE_RIGHT_SPLIT_COUNT : Nat :=
  (LEAF_NODE_MAX_CELLS + 1) - LEAF_NODE_LEFT_SPLIT_COUNT
def LEAF_NODE_MIN_CELLS : Nat := LEAF_NODE_MAX_CELLS / 2
def INTERNAL_NODE_NUM_KEYS_SIZE : Nat := 4
def INTERNAL_NODE_RIGHT_CHILD_SIZE : Nat := 4
def INTERNAL_NODE_HEADER_SIZE : Nat :=
  COMMON_NODE_HEADER_SIZE + INTERNAL_NODE_NUM_KEYS_SIZE + INTERNAL_NODE_RIGHT_CHILD_SIZE
def INTERNAL_NODE_KEY_SIZE : Nat := 12
def INTERNAL_NODE_CHILD_SIZE : Nat := 4
def INTERNAL_NODE_CELL_SIZE : Nat := INTERNAL_NODE_CHILD_SIZE + INTERNAL_NODE_KEY_SIZE
def INTERNAL_NODE_SPACE_FOR_CELLS : Nat := PAGE_SIZE - INTERNAL_NODE_HEADER_SIZE
def INTERNAL_NODE_MAX_CELLS : Nat :=
  INTERNAL_NODE_SPACE_FOR_CELLS / INTERNAL_NODE_CELL_SIZE - 1
def INTERNAL_NODE_MIN_CELLS : Nat := 1

/-! Statement preparation (`prepare_insert`, `myjql.c:1798-1819`). -/

/-- C `isspace` bytes skipped by `atoi`. -/
def isSpaceByte (c : Byte) : Bool :=
  c = 32 || (9 ≤ c && c ≤ 13)

/-- Digit-accumulation part of `atoi`. -/
def atoiDigits : List Byte → Nat → Nat
  | [], acc => acc
  | c :: cs, acc => if 48 ≤ c && c ≤ 57 then atoiDigits cs (acc * 10 + (c - 48)) else acc

/-- C `atoi`: skip leading whitespace, read an optional sign, then a
maximal (possibly empty) digit run; anything after the digits is
ignored, and a token with no leading digits yields 0. -/
def catoi (s : List Byte) : Int :=
  let s := s.dropWhile (fun c => isSpaceByte c)
  match s with
  | 43 :: rest => (atoiDigits rest 0 : Int)
  | 45 :: rest => -(atoiDigits rest 0 : Int)
  | _ => (atoiDigits s 0 : Int)

/-- C `strlen` of a token (the tokens handed over by `strtok` contain
no NUL, but we keep the C reading: length up to the first NUL). -/
def cstrlen (l : List Byte) : Nat :=
  (l.takeWhile (fun c => c ≠ 0)).length

inductive PrepareResult
  | success
  | negativeValue
  | stringTooLong
  | syntaxError
  deriving Repr, DecidableEq

/-- `prepare_insert`: the two tokens after the keyword (`none` models a
missing token).  On success the prepared row is returned; on failure
the row slot of the global statement is untouched (modelled by a dummy
row that no caller reads). -/
def prepareInsert (aTok bTok : Option (List Byte)) : PrepareResult × Row :=
  match aTok, bTok with
  | none, _ => (.syntaxError, ⟨0, pad12 []⟩)
  | _, none => (.syntaxError, ⟨0, pad12 []⟩)
  | some a, some b =>
      let x := catoi a
      if x < 0 then (.negativeValue, ⟨0, pad12 []⟩)
      else if cstrlen b > 11 then (.stringTooLong, ⟨0, pad12 []⟩)
      else (.success, ⟨x.toNat, pad12 b⟩)

/-! The page model.  A page is one 4096-byte block; we keep the header
fields named and the cell area as a list of 16-byte cells (leaf and
internal cells share size 16 and start at offset 14, so the same slot
list serves both readings byte-faithfully: a leaf cell is
key(12)+value(4), an internal cell is child(4)+key(12)).  A missing
suffix of `cells` reads as zero bytes. -/

structure Page where
  /-- node-type byte at offset 0: `true` = leaf (1), `false` = internal (0). -/
  isLeaf : Bool
  /-- is_root byte at offset 1. -/
  isRoot : Bool
  /-- parent page number at offset 2. -/
  parent : Nat
  /-- offset 6: `num_cells` of a leaf / `num_keys` of an internal node. -/
  count : Nat
  /-- offset 10: `next_leaf` of a leaf / `right_child` of an internal node. -/
  link : Nat
  /-- the 16-byte cells from offset 14 onwards. -/
  cells : List (List Byte)
  deriving Repr, DecidableEq

/-- A 16-byte cell of zero bytes. -/
def zeroCell : List Byte := List.replicate 16 0

/-- An all-zero page (what a freshly allocated page reads as; note a
zero type byte means internal). -/
def zeroPage : Page := ⟨false, false, 0, 0, 0, []⟩

/-- Read the cell slot `i` of a page (zero bytes beyond the written
area). -/
def cellAt (p : Page) (i : Nat) : List Byte := p.cells.getD i zeroCell

/-- `leaf_node_key`: the first 12 bytes of leaf cell `i`. -/
def leafNodeKey (p : Page) (i : Nat) : List Byte := (cellAt p i).take 12

/-- `internal_node_key`: bytes 4..16 of internal cell `i`. -/
def internalNodeKey (p : Page) (i : Nat) : List Byte := ((cellAt p i).drop 4).take 12

/-- The child page number stored in internal cell `i` (bytes 0..4). -/
def internalCellChild (p : Page) (i : Nat) : Nat := fromLE4 ((cellAt p i).take 4)

/-- Pad a cell list with zero cells so that indices `< n` are explicit. -/
def ensureCells (l : List (List Byte)) (n : Nat) : List (List Byte) :=
  l ++ List.replicate (n - l.length) zeroCell

/-- Overwrite cell slot `i` of a page. -/
def setCellAt (p : Page) (i : Nat) (c : List Byte) : Page :=
  { p with cells := (ensureCells p.cells (i + 1)).set i c }

/-- Overwrite only the key bytes (4..16) of internal cell `i`. -/
def setInternalKeyAt (p : Page) (i : Nat) (k : List Byte) : Page :=
  setCellAt p i ((cellAt p i).take 4 ++ pad12 k)

/-- Overwrite only the child bytes (0..4) of internal cell `i`. -/
def setInternalCellChild (p : Page) (i : Nat) (c : Nat) : Page :=
  setCellAt p i (le4 c ++ (cellAt p i).drop 4)

/-- `internal_node_child` (read): rightmost child when `i = num_keys`,
cell child when `i < num_keys`, fatal (`none`) when `i > num_keys`
(`myjql.c:589`). -/
def internalNodeChild (p : Page) (i : Nat) : Option Nat :=
  if i > p.count then none
  else if i = p.count then some p.link
  else some (internalCellChild p i)

/-- Writing through `internal_node_child`: the same bounds logic, with
the rightmost-child field as target when `i = num_keys`. -/
def writeInternalChild (p : Page) (i : Nat) (v : Nat) : Option Page :=
  if i > p.count then none
  else if i = p.count then some { p with link := v }
  else some (setInternalCellChild p i v)

/-- `get_node_max_key`: last key of the node (`myjql.c:605`).  On an
empty node the C code reads far out of the page (unsigned underflow);
no modelled path does that. -/
def getNodeMaxKey (p : Page) : List Byte :=
  if p.isLeaf then leafNodeKey p (p.count - 1) else internalNodeKey p (p.count - 1)

/-- The whole database: the pager's page array.  `pages.length` is the
pager's `num_pages`; `get_unused_page_num` returns it. -/
structure DB where
  pages : List Page
  deriving Repr, DecidableEq

/-- `get_page` on a resident (or zero-fresh) page, as a pure read. -/
def getPage (db : DB) (n : Nat) : Page := db.pages.getD n zeroPage

/-- Store a page object back (the page was materialized by `get_page`
first, so the array is extended with zero pages up to `n` if needed). -/
def setPage (db : DB) (n : Nat) (p : Page) : DB :=
  ⟨(db.pages ++ List.replicate (n + 1 - db.pages.length) zeroPage).set n p⟩

/-- `get_page(get_unused_page_num())`: materialize one fresh zero page
and return its number. -/
def allocPage (db : DB) : Nat × DB :=
  (db.pages.length, ⟨db.pages ++ [zeroPage]⟩)

/-- Update only the parent field of page `n` (a `*node_parent(c) = v`
store). -/
def setParent (db : DB) (n : Nat) (v : Nat) : DB :=
  setPage db n { getPage db n with parent := v }

/-- The state `db_open` produces for a new file: page 0 initialized as
an empty root leaf (`myjql.c:139-144`). -/
def initialDB : DB :=
  ⟨[{ isLeaf := true, isRoot := true, parent := 0, count := 0, link := 0, cells := [] }]⟩

/-! Cursor and search (`myjql.c:204-341`). -/

structure Cursor where
  pageNum : Nat
  cellNum : Nat
  endOfTable : Bool
  deriving Repr, DecidableEq

/-- The tie-walk of the binary searches: from an index whose key
compares equal, step left while the key stays equal; the result is
`test_index + 1` of the C code (`myjql.c:243-253`).  `keyAt` is the
node's key reader. -/
def walkLeft (keyAt : Nat → List Byte) (key : List Byte) : Nat → Nat
  | 0 => if cstrcmp key (keyAt 0) = .eq then 0 else 1
  | i + 1 => if cstrcmp key (keyAt (i + 1)) = .eq then walkLeft keyAt key i else i + 2

/-- The shared binary-search loop of `leaf_node_find` and
`internal_node_find_child`: find the leftmost index whose key compares
`≥ key`, walking left over equal keys.  `fuel ≥ mx - mn` makes it exact. -/
def findLoop (keyAt : Nat → List Byte) (key : List Byte) : Nat → Nat → Nat → Nat
  | 0, mn, _ => mn
  | fuel + 1, mn, mx =>
      if mn = mx then mn
      else
        let idx := (mn + mx) / 2
        match cstrcmp key (keyAt idx) with
        | .eq => walkLeft keyAt key idx
        | .lt => findLoop keyAt key fuel mn idx
        | .gt => findLoop keyAt key fuel (idx + 1) mx

/-- The cell index computed by `leaf_node_find` (`myjql.c:225-266`). -/
def leafNodeFindIdx (p : Page) (key : List Byte) : Nat :=
  findLoop (leafNodeKey p) key (p.count + 1) 0 p.count

/-- `leaf_node_find`: a cursor at the leftmost position whose key is
`≥ key`.  The C code never writes `end_of_table` here (it is
`malloc` garbage); every modelled caller behaves as if it were false. -/
def leafNodeFind (db : DB) (pageNum : Nat) (key : List Byte) : Cursor :=
  ⟨pageNum, leafNodeFindIdx (getPage db pageNum) key, false⟩

/-- `internal_node_find_child` (`myjql.c:620-663`): fatal (`none`) on a
node with zero keys. -/
def internalNodeFindChild (p : Page) (key : List Byte) : Option Nat :=
  if p.count = 0 then none
  else some (findLoop (internalNodeKey p) key (p.count + 1) 0 p.count)

/-- `internal_node_find` (`myjql.c:277-290`): descend into the child
chosen by `internal_node_find_child`; fuel bounds the descent depth. -/
def internalNodeFind (db : DB) (key : List Byte) : Nat → Nat → Option Cursor
  | 0, _ => none
  | fuel + 1, pageNum =>
      let node := getPage db pageNum
      match internalNodeFindChild node key with
      | none => none
      | some childIndex =>
          match internalNodeChild node childIndex with
          | none => none
          | some childPage =>
              if (getPage db childPage).isLeaf then some (leafNodeFind db childPage key)
              else internalNodeFind db key fuel childPage

/-- `table_find` (`myjql.c:293-301`); the root page number is always 0. -/
def tableFind (db : DB) (key : List Byte) (fuel : Nat) : Option Cursor :=
  if (getPage db 0).isLeaf then some (leafNodeFind db 0 key)
  else internalNodeFind db key fuel 0

/-- `table_start` (`myjql.c:304-314`): probe for the key `"0"` and then
set `end_of_table` from the landed leaf's cell count. -/
def tableStart (db : DB) (fuel : Nat) : Option Cursor :=
  match tableFind db (pad12 [48]) fuel with
  | none => none
  | some c => some { c with endOfTable := (getPage db c.pageNum).count = 0 }

/-- `cursor_value`: the cell the cursor points at (`myjql.c:317`). -/
def cursorValue (db : DB) (c : Cursor) : List Byte :=
  cellAt (getPage db c.pageNum) c.cellNum

/-- `cursor_advance` (`myjql.c:323-340`). -/
def cursorAdvance (db : DB) (c : Cursor) : Cursor :=
  let node := getPage db c.pageNum
  let cn := c.cellNum + 1
  if cn ≥ node.count then
    if node.link = 0 then { c with cellNum := cn, endOfTable := true }
    else ⟨node.link, 0, c.endOfTable⟩
  else { c with cellNum := cn }

/-! Insert path (`myjql.c:703-1215`). -/

/-- The descending shift `for (i = n; i > index; --i) cell[i] = cell[i-1]`
used to make room in a cell array: slots `index+1..n` receive their left
neighbour's original value, everything else is unchanged. -/
def shiftCellsRight (cells : List (List Byte)) (index n : Nat) : List (List Byte) :=
  let cs := ensureCells cells (n + 1)
  cs.take (index + 1) ++ (cs.drop index).take (n - index) ++ cs.drop (n + 1)

/-- The re-pointing loops `for (i…) *node_parent(get_page(child(i))) = target`:
set the parent field of the pages named by the first `n` cell children of
`p` (read from the snapshot of `p`, which the loop does not modify). -/
def repointChildren (db : DB) (p : Page) (target : Nat) : Nat → DB
  | 0 => db
  | i + 1 => setParent (repointChildren db p target i) (internalCellChild p i) target

/-- `insert_into_parent` (`myjql.c:766-1013`): push a lifted key and the
new right sibling of `oldLeftPg` into the tree above, splitting internal
nodes (and the root) as needed.  Fuel bounds the upward recursion. -/
def insertIntoParent (db : DB) (oldLeftPg oldRightPg : Nat) (key : List Byte) :
    Nat → Option DB
  | 0 => none
  | fuel + 1 =>
      if oldLeftPg = 0 then
        -- the split node was the root: make a fresh left copy and rebuild page 0
        let root := getPage db 0
        let (newLeftId, db) := allocPage db
        let newLeft := { root with isLeaf := false, isRoot := false }
        let db := setPage db newLeftId newLeft
        let rootCells := (ensureCells root.cells 1).set 0 (le4 newLeftId ++ pad12 key)
        let db := setPage db 0
          { isLeaf := false, isRoot := true, parent := root.parent, count := 1,
            link := oldRightPg, cells := rootCells }
        let db := setParent db newLeftId 0
        let db := repointChildren db newLeft newLeftId newLeft.count
        let db := setParent db newLeft.link newLeftId
        let db := setParent db oldRightPg 0
        some db
      else
        let oldLeft := getPage db oldLeftPg
        let parentId := oldLeft.parent
        let parent := getPage db parentId
        let num := parent.count
        if num ≤ INTERNAL_NODE_MAX_CELLS - 1 then
          -- the parent still has room: plain internal insert
          match internalNodeFindChild parent key with
          | none => none
          | some index =>
              let parentMax := getNodeMaxKey parent
              if cstrcmp key parentMax ≠ .lt then
                -- append at the right: old rightmost becomes cell `num`
                let p1 := { parent with count := num + 1 }
                let p2 := setInternalCellChild p1 num p1.link
                let p3 := setInternalKeyAt p2 num key
                let p4 := { p3 with link := oldRightPg }
                let db := setPage db parentId p4
                some (setParent db oldRightPg parentId)
              else
                -- shift and install in the middle; count is bumped at the end
                let p1 := { parent with cells := shiftCellsRight parent.cells index num }
                let p2 := setInternalCellChild p1 index oldLeftPg
                let db := setPage db parentId p2
                let db := setParent db oldLeftPg parentId
                let p3 := setInternalKeyAt (getPage db parentId) index key
                match writeInternalChild p3 (index + 1) oldRightPg with
                | none => none
                | some p4 =>
                    let db := setPage db parentId p4
                    let db := setParent db oldRightPg parentId
                    some (setPage db parentId
                      { getPage db parentId with count := num + 1 })
        else
          -- the parent itself is full
          match internalNodeFindChild parent key with
          | none => none
          | some keyIndex =>
              if parentId = 0 then
                -- the full parent is the root: split it into two fresh halves
                let (newLeftPartId, db) := allocPage db
                let (newRightPartId, db) := allocPage db
                let p1 := { parent with count := num + 1 }
                let p2 :=
                  if keyIndex ≥ num then
                    let p := setInternalCellChild p1 num p1.link
                    let p := setInternalKeyAt p num key
                    { p with link := oldRightPg }
                  else
                    let p := { p1 with cells := shiftCellsRight p1.cells keyIndex num }
                    let p := setInternalCellChild p keyIndex oldLeftPg
                    let p := setInternalKeyAt p keyIndex key
                    setInternalCellChild p (keyIndex + 1) oldRightPg
                let leftCount := ((num + 1) - 1) / 2
                let rightCount := ((num + 1) - 1) - leftCount
                let midKey := internalNodeKey p2 leftCount
                let newLeftPart : Page :=
                  { isLeaf := false, isRoot := false, parent := 0, count := leftCount,
                    link := internalCellChild p2 leftCount,
                    cells := (List.range leftCount).map (fun i => cellAt p2 i) }
                let newRightPart : Page :=
                  { isLeaf := false, isRoot := false, parent := 0, count := rightCount,
                    link := p2.link,
                    cells := (List.range rightCount).map
                      (fun i => cellAt p2 (i + leftCount + 1)) }
                let db := setPage db newLeftPartId newLeftPart
                let db := setPage db newRightPartId newRightPart
                let db := repointChildren db newLeftPart newLeftPartId leftCount
                let db := setParent db newLeftPart.link newLeftPartId
                let db := repointChildren db newRightPart newRightPartId rightCount
                let db := setParent db newRightPart.link newRightPartId
                let rootCells := (ensureCells p2.cells 1).set 0
                  (le4 newLeftPartId ++ pad12 midKey)
                let db := setPage db 0
                  { isLeaf := false, isRoot := true, parent := p2.parent, count := 1,
                    link := newRightPartId, cells := rootCells }
                let db := setParent db newLeftPartId 0
                some (setParent db newRightPartId 0)
              else
                -- split the full internal parent and recurse upwards
                let (rightPartId, db) := allocPage db
                let p1 := { parent with count := num + 1 }
                let p2 :=
                  if keyIndex ≥ num then
                    let p := setInternalCellChild p1 num p1.link
                    let p := setInternalKeyAt p num key
                    { p with link := oldRightPg }
                  else
                    let p := { p1 with cells := shiftCellsRight p1.cells keyIndex num }
                    let p := setInternalCellChild p keyIndex oldLeftPg
                    let p := setInternalKeyAt p keyIndex key
                    setInternalCellChild p (keyIndex + 1) oldRightPg
                let midIdx := (num + 1) / 2
                let keyLift := internalNodeKey p2 midIdx
                let reservedChild := internalCellChild p2 midIdx
                let rightSize := num / 2
                let leftSize := num - rightSize
                let rightPart : Page :=
                  { isLeaf := false, isRoot := false, parent := 0, count := rightSize,
                    link := p2.link,
                    cells := (List.range rightSize).map
                      (fun i => cellAt p2 (leftSize + i + 1)) }
                let db := setPage db rightPartId rightPart
                let db := setParent db rightPart.link rightPartId
                let db := repointChildren db rightPart rightPartId rightSize
                let pLeft := { p2 with count := leftSize }
                let db := setPage db parentId pLeft
                let db := repointChildren db pLeft parentId leftSize
                let db := setPage db parentId
                  { getPage db parentId with link := reservedChild }
                insertIntoParent db parentId rightPartId keyLift fuel

/-- `internal_node_insert` (`myjql.c:1016-1110`): insert the key lifted
by a leaf split (with the new right leaf `childPg`) into `parentPg`,
splitting the parent when it overflows. -/
def internalNodeInsert (db : DB) (parentPg childPg : Nat) (key : List Byte)
    (fuel : Nat) : Option DB :=
  let parent := getPage db parentPg
  let parentMax := getNodeMaxKey parent
  match internalNodeFindChild parent key with
  | none => none
  | some index =>
      let rightmostId := parent.link
      let origNum := parent.count
      let p1 := { parent with count := origNum + 1 }
      let afterInsert : DB :=
        if cstrcmp key parentMax ≠ .lt then
          let p2 := setInternalCellChild p1 origNum rightmostId
          let p3 := setInternalKeyAt p2 origNum key
          setPage db parentPg { p3 with link := childPg }
        else
          let p2 := { p1 with cells := shiftCellsRight p1.cells index origNum }
          let p3 := setInternalCellChild p2 (index + 1) childPg
          setPage db parentPg (setInternalKeyAt p3 index key)
      let db := afterInsert
      if origNum + 1 > INTERNAL_NODE_MAX_CELLS then
        -- split the overfull parent and recurse into its parent
        let (newId, db) := allocPage db
        let parent := getPage db parentPg
        let midIndex := (1 + origNum) / 2
        let leftNum := midIndex
        let rightNum := origNum - leftNum
        let newNode : Page :=
          { isLeaf := false, isRoot := false, parent := 0, count := rightNum,
            link := parent.link,
            cells := (List.range rightNum).map (fun i => cellAt parent (i + leftNum + 1)) }
        let db := setPage db newId newNode
        let db := setParent db newNode.link newId
        let db := repointChildren db newNode newId rightNum
        let pLeft := { parent with link := internalCellChild parent midIndex }
        let db := setPage db parentPg pLeft
        let db := setParent db pLeft.link parentPg
        let keyLift := internalNodeKey pLeft midIndex
        let pLeft2 := { pLeft with count := leftNum }
        let db := setPage db parentPg pLeft2
        let db := repointChildren db pLeft2 parentPg leftNum
        insertIntoParent db parentPg newId keyLift fuel
      else
        let parent := getPage db parentPg
        let db := repointChildren db parent parentPg parent.count
        some (setParent db parent.link parentPg)

/-- `create_new_root` (`myjql.c:732-763`): copy the old root into a fresh
left page and rebuild page 0 as an internal node over the two halves. -/
def createNewRoot (db : DB) (rightPg : Nat) : DB :=
  let root := getPage db 0
  let (leftId, db) := allocPage db
  let leftChild := { root with isRoot := false }
  let db := setPage db leftId leftChild
  let rootCells := (ensureCells root.cells 1).set 0
    (le4 leftId ++ pad12 (getNodeMaxKey leftChild))
  let db := setPage db 0
    { isLeaf := false, isRoot := true, parent := root.parent, count := 1,
      link := rightPg, cells := rootCells }
  let db := setParent db leftId 0
  setParent db rightPg 0

/-- The source of the split distribution loop `myjql.c:1132-1158`: the
`i`-th of the `MAX_CELLS + 1` logical cells (old cells plus the incoming
cell at the cursor's index).  The incoming cell is `serialize_row`
followed by a `memcpy` of `key` over bytes 0..12. -/
def splitSrcCell (oldNode : Page) (cellIdx : Nat) (incoming : List Byte) (i : Nat) :
    List Byte :=
  if i = cellIdx then incoming
  else if i > cellIdx then cellAt oldNode (i - 1)
  else cellAt oldNode i

/-- The fresh right leaf a leaf split writes: logical cells
`LEFT_SPLIT_COUNT … MAX_CELLS` of the distribution, `RIGHT_SPLIT_COUNT`
of them, linked where the old leaf pointed. -/
def splitNewLeafPage (oldNode : Page) (cellIdx : Nat) (incoming : List Byte) : Page :=
  { isLeaf := true, isRoot := false, parent := oldNode.parent,
    count := LEAF_NODE_RIGHT_SPLIT_COUNT, link := oldNode.link,
    cells := (List.range LEAF_NODE_RIGHT_SPLIT_COUNT).map
      (fun j => splitSrcCell oldNode cellIdx incoming (j + LEAF_NODE_LEFT_SPLIT_COUNT)) }

/-- The old leaf after a split: logical cells `0 … LEFT_SPLIT_COUNT - 1`,
count `LEFT_SPLIT_COUNT`, linked to the new right leaf; slots past
`LEFT_SPLIT_COUNT` keep their stale bytes. -/
def splitOldLeafPage (oldNode : Page) (cellIdx : Nat) (incoming : List Byte)
    (newPg : Nat) : Page :=
  { oldNode with
      count := LEAF_NODE_LEFT_SPLIT_COUNT
      link := newPg
      cells := ((List.range LEAF_NODE_LEFT_SPLIT_COUNT).map
          (splitSrcCell oldNode cellIdx incoming))
        ++ (ensureCells oldNode.cells LEAF_NODE_LEFT_SPLIT_COUNT).drop
             LEAF_NODE_LEFT_SPLIT_COUNT }

/-- `leaf_node_split_and_insert` (`myjql.c:1113-1172`): distribute the
`MAX_CELLS + 1` cells (old plus incoming) over the old leaf
(`LEFT_SPLIT_COUNT`) and a fresh right leaf (`RIGHT_SPLIT_COUNT`), then
lift the old leaf's new max key into the parent (or grow a new root). -/
def leafNodeSplitAndInsert (db : DB) (cur : Cursor) (key : List Byte) (row : Row)
    (fuel : Nat) : Option DB :=
  let oldPg := cur.pageNum
  let oldNode := getPage db oldPg
  let (newPg, db) := allocPage db
  let incoming := pad12 key ++ le4 row.a
  let newNode := splitNewLeafPage oldNode cur.cellNum incoming
  let oldNodeAfter := splitOldLeafPage oldNode cur.cellNum incoming newPg
  let db := setPage db newPg newNode
  let db := setPage db oldPg oldNodeAfter
  if oldNode.isRoot then some (createNewRoot db newPg)
  else
    internalNodeInsert db oldNode.parent newPg
      (leafNodeKey oldNodeAfter (LEAF_NODE_LEFT_SPLIT_COUNT - 1)) fuel

/-- `leaf_node_insert` (`myjql.c:1175-1198`): in-place insert at the
cursor, or split when the leaf is at `MAX_CELLS`. -/
def leafNodeInsert (db : DB) (cur : Cursor) (key : List Byte) (row : Row)
    (fuel : Nat) : Option DB :=
  let node := getPage db cur.pageNum
  let num := node.count
  if num ≥ LEAF_NODE_MAX_CELLS then leafNodeSplitAndInsert db cur key row fuel
  else
    -- shift cells [cellNum, num) right, then write the serialized row
    let cs := ensureCells node.cells (num + 1)
    let cells' := cs.take cur.cellNum ++ serializeRow row ::
      ((cs.drop cur.cellNum).take (num - cur.cellNum)) ++ cs.drop (num + 1)
    some (setPage db cur.pageNum { node with count := num + 1, cells := cells' })

/-- `b_tree_insert` (`myjql.c:1201-1215`): find the duplicate-leftmost
position for the row's key and insert there. -/
def bTreeInsert (db : DB) (row : Row) (findFuel upFuel : Nat) : Option DB :=
  match tableFind db (pad12 row.b) findFuel with
  | none => none
  | some cur => leafNodeInsert db cur (pad12 row.b) row upFuel

/-! Delete path (`myjql.c:1219-1735`). -/

/-- The ascending shift `for (i = start; i < n - 1; ++i) cell[i] = cell[i+1]`:
slots `start..n-2` receive their right neighbour's original value; slot
`n-1` keeps its old (now stale) value, later slots are untouched. -/
def shiftCellsLeft (cells : List (List Byte)) (start n : Nat) : List (List Byte) :=
  let cs := ensureCells cells n
  cs.take start ++ (cs.drop (start + 1)).take (n - 1 - start) ++ cs.drop (n - 1)

/-- The self-overlapping ascending copy
`for (i = 0; i < k; ++i) cell[shift+i] = cell[i]` of `internalnode_merge`:
each iteration reads the current (already partially overwritten) array,
exactly as the C loop does. -/
def overlapCopy (cells : List (List Byte)) (shift : Nat) : Nat → List (List Byte)
  | 0 => cells
  | k + 1 =>
      let cs := overlapCopy cells shift k
      (ensureCells cs (shift + k + 1)).set (shift + k) (cs.getD k zeroCell)

/-- The plain copy `for (i = 0; i < n; ++i) dst[off+i] = srcPage.cell[i]`
(the source page is not modified by the loop). -/
def copyCells (dst : List (List Byte)) (off : Nat) (srcPage : Page) : Nat → List (List Byte)
  | 0 => dst
  | k + 1 =>
      let cs := copyCells dst off srcPage k
      (ensureCells cs (off + k + 1)).set (off + k) (cellAt srcPage k)

/-- `adjust_root` (`myjql.c:1222-1249`): `none` models the fatal
"Invalid Operation!" exit on an empty internal root. -/
def adjustRoot (node : Page) : Option Bool :=
  if node.isLeaf = false then
    if node.count ≥ 1 then some false else none
  else
    if node.count ≥ 1 then some false else some true

/-- `internalnode_redistribute` (`myjql.c:1252-1317`): borrow one entry
from a sibling internal node through the parent separator. -/
def internalnodeRedistribute (db : DB) (curPg sibPg parentPg valueIndex : Nat)
    (rightmost : Bool) : DB :=
  let parentN := getPage db parentPg
  let keyFromParent := internalNodeKey parentN valueIndex
  if rightmost then
    let sib := getPage db sibPg
    let sibSize := sib.count
    let keyFromSib := internalNodeKey sib (sibSize - 1)
    let childFromSib := sib.link
    let newRightmost := internalCellChild sib (sibSize - 1)
    let db := setPage db sibPg { sib with link := newRightmost, count := sibSize - 1 }
    let cur := getPage db curPg
    let cur1 := { cur with count := cur.count + 1 }
    let db := setPage db curPg (setInternalKeyAt cur1 0 keyFromParent)
    let db := setPage db parentPg
      (setInternalKeyAt (getPage db parentPg) valueIndex keyFromSib)
    let cur2 := getPage db curPg
    setPage db curPg (setInternalCellChild cur2 0 childFromSib)
  else
    let sib := getPage db sibPg
    let keyFromSib := internalNodeKey sib 0
    let childFromSib := internalCellChild sib 0
    let sibSize := sib.count
    let db := setPage db sibPg
      { sib with count := sibSize - 1, cells := shiftCellsLeft sib.cells 0 sibSize }
    let cur := getPage db curPg
    let curSize := cur.count + 1
    let cur1 := { cur with count := curSize }
    let db := setPage db curPg (setInternalKeyAt cur1 (curSize - 1) keyFromParent)
    let db := setPage db parentPg
      (setInternalKeyAt (getPage db parentPg) valueIndex keyFromSib)
    let cur2 := getPage db curPg
    setPage db curPg { cur2 with link := childFromSib }

/-- `leaf_redistribute` (`myjql.c:1320-1374`).  The branch is chosen by
the node's own `next_leaf` pointer; in the left-sibling branch the C
code updates neither leaf's cell count (the borrowed cell is duplicated
in the sibling and the node's last visible cell is dropped). -/
def leafRedistribute (db : DB) (nodePg sibPg parentPg valueIndex : Nat) : DB :=
  let node := getPage db nodePg
  if node.link ≠ 0 then
    let sib := getPage db sibPg
    let curNum := node.count
    let keyToReplace := leafNodeKey sib 0
    let node1 := setCellAt node curNum (cellAt sib 0)
    let db := setPage db nodePg { node1 with count := curNum + 1 }
    let sibSize := sib.count
    let db := setPage db sibPg
      { sib with count := sibSize - 1, cells := shiftCellsLeft sib.cells 0 sibSize }
    setPage db parentPg (setInternalKeyAt (getPage db parentPg) valueIndex keyToReplace)
  else
    let sib := getPage db sibPg
    let leftSibSize := sib.count
    let leftSibLast := leafNodeKey sib (leftSibSize - 1)
    let node1 := { node with cells := shiftCellsRight node.cells 0 node.count }
    let node2 := setCellAt node1 0 (cellAt sib (leftSibSize - 1))
    let db := setPage db nodePg node2
    setPage db parentPg (setInternalKeyAt (getPage db parentPg) valueIndex leftSibLast)

/-- `leafnode_move_all_to` (`myjql.c:1477-1491`). -/
def leafnodeMoveAllTo (db : DB) (srcPg dstPg : Nat) : DB :=
  let src := getPage db srcPg
  let dst := getPage db dstPg
  let db := setPage db dstPg
    { dst with
        cells := copyCells dst.cells dst.count src src.count
        count := src.count + dst.count
        link := src.link }
  setPage db srcPg { src with count := 0, link := 0 }

mutual

/-- `merge_or_redistribute` (`myjql.c:1559-1675`): after a deletion,
decide between returning, redistributing with a sibling, or merging and
recursing into the parent. -/
def mergeOrRedistribute (db : DB) (nodePg : Nat) (key : List Byte) :
    Nat → Option (Bool × DB)
  | 0 => none
  | fuel + 1 =>
      let node := getPage db nodePg
      if nodePg = 0 then (adjustRoot node).map (fun b => (b, db))
      else if node.isLeaf && node.count ≥ LEAF_NODE_MAX_CELLS / 2 then some (false, db)
      else if node.isLeaf = false && node.count ≥ INTERNAL_NODE_MIN_CELLS then
        some (false, db)
      else
        let parentId := node.parent
        let parentN := getPage db parentId
        match internalNodeFindChild parentN key with
        | none => none
        | some childIndex =>
            if node.isLeaf then
              let numChild := parentN.count
              let sibId := if childIndex = numChild then
                  internalCellChild parentN (numChild - 1)
                else node.link
              let rightmost := childIndex = numChild
              let sib := getPage db sibId
              if sib.count ≥ 1 + LEAF_NODE_MIN_CELLS then
                some (false, leafRedistribute db nodePg sibId parentId childIndex)
              else
                (leafnodeMerge db sibId nodePg parentId key rightmost fuel).map
                  (fun d => (true, d))
            else
              let numChild := parentN.count
              let sibRead := if childIndex ≥ numChild then
                  some (internalCellChild parentN (childIndex - 1))
                else internalNodeChild parentN (childIndex + 1)
              let rightmost := childIndex ≥ numChild
              match sibRead with
              | none => none
              | some sibId =>
                  let sib := getPage db sibId
                  if sib.count ≥ 1 + INTERNAL_NODE_MIN_CELLS then
                    some (false,
                      internalnodeRedistribute db nodePg sibId parentId childIndex rightmost)
                  else
                    (internalnodeMerge db sibId nodePg parentId key rightmost fuel).map
                      (fun d => (true, d))
termination_by structural f => f

/-- `leafnode_merge` (`myjql.c:1494-1556`): move one leaf into the other,
drop the separator from the parent, collapse the root if it became an
empty internal node, otherwise recurse into the parent. -/
def leafnodeMerge (db : DB) (sibPg curPg parentPg : Nat) (key : List Byte)
    (rightmost : Bool) : Nat → Option DB
  | 0 => none
  | fuel + 1 =>
      let db := if rightmost then leafnodeMoveAllTo db curPg sibPg
                else leafnodeMoveAllTo db sibPg curPg
      let parentN := getPage db parentPg
      match internalNodeFindChild parentN key with
      | none => none
      | some keyIndex =>
          let keyNum := parentN.count
          let db :=
            if keyIndex < keyNum - 1 then
              let childReserve := internalCellChild parentN keyIndex
              let p1 := { parentN with cells := shiftCellsLeft parentN.cells keyIndex keyNum }
              setPage db parentPg (setInternalCellChild p1 keyIndex childReserve)
            else if keyNum > 1 then
              setPage db parentPg
                { parentN with link := internalCellChild parentN (keyIndex - 1) }
            else db
          let db := setPage db parentPg { getPage db parentPg with count := keyNum - 1 }
          if parentPg = 0 then
            if (getPage db parentPg).count = 0 then
              let sourcePg := if rightmost then sibPg else curPg
              let srcPage := getPage db sourcePg
              let db := setPage db parentPg srcPage
              let db := setPage db sourcePg { srcPage with count := 0 }
              let p := getPage db parentPg
              some (setPage db parentPg { p with isLeaf := true, isRoot := true, link := 0 })
            else some db
          else
            (mergeOrRedistribute db parentPg key fuel).map (fun p => p.2)
termination_by structural f => f

/-- `internalnode_merge` (`myjql.c:1377-1474`): pull the separator down,
combine the two internal nodes, fix the parent, collapse the root when
it ran empty (re-pointing only the rightmost child's parent — the loop
over the other children runs zero times because its bound is the old
empty root's key count), otherwise recurse into the parent. -/
def internalnodeMerge (db : DB) (sibPg curPg parentPg : Nat) (key : List Byte)
    (rightmost : Bool) : Nat → Option DB
  | 0 => none
  | fuel + 1 =>
      let parentN := getPage db parentPg
      match internalNodeFindChild parentN key with
      | none => none
      | some childIndexInParent =>
          let cur := getPage db curPg
          let sib := getPage db sibPg
          let sibSize := sib.count
          let keyToBorrow := internalNodeKey parentN childIndexInParent
          let db := setPage db curPg (setInternalKeyAt cur cur.count keyToBorrow)
          let numKeysInParent := parentN.count
          let db := setPage db parentPg
            { getPage db parentPg with
                count := numKeysInParent - 1
                cells := shiftCellsLeft (getPage db parentPg).cells
                  childIndexInParent numKeysInParent }
          let curSize := cur.count + 1
          let cur2 := { getPage db curPg with count := sibSize + curSize }
          let dbAfter : Option DB :=
            if rightmost then
              let leftpartRightmost := sib.link
              let moved := overlapCopy cur2.cells sibSize curSize
              let withSib := copyCells moved 0 sib sibSize
              let cur3 := { cur2 with cells := withSib }
              match writeInternalChild cur3 sibSize leftpartRightmost with
              | none => none
              | some cur4 =>
                  some (setPage (setPage db curPg cur4) sibPg zeroPage)
            else
              let cur3 :=
                { cur2 with cells := copyCells cur2.cells curSize sib sibSize, link := sib.link }
              some (setPage db curPg cur3)
          match dbAfter with
          | none => none
          | some db =>
              if parentPg = 0 then
                let parentSize := (getPage db parentPg).count
                if parentSize = 0 then
                  let curNow := getPage db curPg
                  let db := setPage db parentPg curNow
                  let db := setPage db curPg zeroPage
                  let db := setPage db parentPg { getPage db parentPg with isRoot := true }
                  let db := repointChildren db (getPage db parentPg) 0 parentSize
                  some (setParent db (getPage db parentPg).link 0)
                else some db
              else
                if (getPage db parentPg).count ≥ INTERNAL_NODE_MIN_CELLS then some db
                else (mergeOrRedistribute db parentPg keyToBorrow fuel).map (fun p => p.2)
termination_by structural f => f

end

/-- `leaf_node_delete` (`myjql.c:1678-1709`): remove the cell at the
cursor if it still holds the key, then rebalance. -/
def leafNodeDelete (db : DB) (pageId cellNum : Nat) (key : List Byte)
    (mrFuel : Nat) : Option (Bool × DB) :=
  let node := getPage db pageId
  let num := node.count
  if cstrcmp (leafNodeKey node cellNum) key ≠ .eq ∨ num = 0 ∨ cellNum = num then
    some (false, db)
  else
    let cells1 := (ensureCells node.cells (cellNum + 1)).set cellNum zeroCell
    let cells2 := shiftCellsLeft cells1 cellNum num
    let db := setPage db pageId { node with count := num - 1, cells := cells2 }
    (mergeOrRedistribute db pageId key mrFuel).map (fun p => (true, p.2))

/-- `b_tree_delete` (`myjql.c:1712-1735`): delete matching cells one at
a time until the lookup no longer lands on the key. -/
def bTreeDelete (db : DB) (key : List Byte) (findFuel mrFuel : Nat) :
    Nat → Option DB
  | 0 => none
  | loopFuel + 1 =>
      match tableFind db key findFuel with
      | none => none
      | some cur =>
          if cur.endOfTable then some db
          else
            match leafNodeDelete db cur.pageNum cur.cellNum key mrFuel with
            | none => none
            | some (false, db') => some db'
            | some (true, db') => bTreeDelete db' key findFuel mrFuel loopFuel

/-! Queries (`myjql.c:706-728`, `1737-1753`) and the statement level. -/

/-- What `printf("%s", b)` shows of a 12-byte buffer: the bytes before
the first NUL. -/
def cstr (l : List Byte) : List Byte := l.takeWhile (fun c => c ≠ 0)

/-- The loop of `b_tree_search`: print rows while the key still matches. -/
def bTreeSearchLoop (db : DB) (key : List Byte) :
    Cursor → List (Nat × List Byte) → Nat → Option (List (Nat × List Byte))
  | _, _, 0 => none
  | c, acc, fuel + 1 =>
      if c.endOfTable then some acc
      else
        let row := deserializeRow (cursorValue db c)
        if cstrcmp row.b key ≠ .eq then some acc
        else bTreeSearchLoop db key (cursorAdvance db c) (acc ++ [(row.a, cstr row.b)]) fuel

/-- `b_tree_search`: the rows printed by `select <b>` (an empty list is
what prints as `(Empty)`). -/
def bTreeSearch (db : DB) (key : List Byte) (findFuel loopFuel : Nat) :
    Option (List (Nat × List Byte)) :=
  match tableFind db key findFuel with
  | none => none
  | some c => bTreeSearchLoop db key c [] loopFuel

/-- The loop of `b_tree_traverse`: print every row until `end_of_table`. -/
def bTreeTraverseLoop (db : DB) :
    Cursor → List (Nat × List Byte) → Nat → Option (List (Nat × List Byte))
  | _, _, 0 => none
  | c, acc, fuel + 1 =>
      if c.endOfTable then some acc
      else
        let row := deserializeRow (cursorValue db c)
        bTreeTraverseLoop db (cursorAdvance db c) (acc ++ [(row.a, cstr row.b)]) fuel

/-- `b_tree_traverse`: the rows printed by a bare `select`. -/
def bTreeTraverse (db : DB) (findFuel loopFuel : Nat) :
    Option (List (Nat × List Byte)) :=
  match tableStart db findFuel with
  | none => none
  | some c => if c.endOfTable then some [] else bTreeTraverseLoop db c [] loopFuel

/-- One executed statement, as dispatched by `execute_statement`. -/
inductive Cmd
  | ins (a : Nat) (b : List Byte)
  | del (b : List Byte)
  | selKey (b : List Byte)
  | selAll
  deriving Repr, DecidableEq

/-- Fuel ample for every trace in this file. -/
def FUEL : Nat := 400

/-- Execute one statement, returning the new state and the printed rows. -/
def execCmd (db : DB) : Cmd → Option (DB × List (Nat × List Byte))
  | .ins a b => (bTreeInsert db ⟨a, pad12 b⟩ FUEL FUEL).map (fun d => (d, []))
  | .del b => (bTreeDelete db (pad12 b) FUEL FUEL FUEL).map (fun d => (d, []))
  | .selKey b => (bTreeSearch db (pad12 b) FUEL FUEL).map (fun o => (db, o))
  | .selAll => (bTreeTraverse db FUEL FUEL).map (fun o => (db, o))

/-- Run a statement list from a state, concatenating all printed rows. -/
def runCmds : DB → List Cmd → Option (DB × List (Nat × List Byte))
  | db, [] => some (db, [])
  | db, c :: cs =>
      (execCmd db c).bind fun p => (runCmds p.1 cs).map fun q => (q.1, p.2 ++ q.2)

/-! Concrete traces.  The shortest statement sequences that exercise the
multi-leaf delete paths need 255 inserts (a leaf splits only at
`MAX_CELLS = 254`), so the runs below are checked in stages through
explicitly stated intermediate states. -/

/-- The key token `kNNN` (three decimal digits), ascending in byte order. -/
def numKey (i : Nat) : List Byte := [107, 48 + i / 100, 48 + i / 10 % 10, 48 + i % 10]

/-- The serialized cell of row `(i, kNNN)`. -/
def kcell (i : Nat) : List Byte := pad12 (numKey i) ++ le4 i

/-- The serialized cell of row `(999, "a")`. -/
def aCell : List Byte := pad12 [97] ++ le4 999

/-- `insert i kNNN` for `i = start, …, start+len-1`. -/
def segIns (start len : Nat) : List Cmd :=
  (List.range' start len).map (fun i => Cmd.ins i (numKey i))

/-- The table state after inserting `(0,k000) … (k-1,kNNN)` in order:
one root leaf holding the `k` cells. -/
def dbStage (k : Nat) : DB :=
  ⟨[{ isLeaf := true, isRoot := true, parent := 0, count := k, link := 0,
      cells := (List.range k).map kcell }]⟩

/-- Page 0 after the split of the full root leaf: an internal root with
one key `k126`, left child page 2, rightmost child page 1.  The cell
area beyond cell 0 keeps the old leaf's bytes (stale). -/
def p0Split : Page := ⟨false, true, 0, 1, 1,
  (List.range 254).map (fun i => if i = 0 then le4 2 ++ pad12 (numKey 126) else kcell i)⟩

/-- Page 1 after the split: the new right leaf `k127 … k254`. -/
def p1Split : Page := ⟨true, false, 0, 128, 0, (List.range 128).map (fun j => kcell (127 + j))⟩

/-- Page 2 after the split: the copied left leaf, 127 visible cells
`k000 … k126` (cells 127… stale), linked to page 1. -/
def p2Split : Page := ⟨true, false, 0, 127, 1, (List.range 254).map kcell⟩

/-- The state right after the 255th insert splits the root leaf. -/
def dbSplit : DB := ⟨[p0Split, p1Split, p2Split]⟩

/-- Page 2 after additionally inserting `(999, "a")` at its front. -/
def p2S2 : Page := ⟨true, false, 0, 128, 1,
  (List.range 254).map (fun j => if j = 0 then aCell else if j ≤ 127 then kcell (j - 1) else kcell j)⟩

/-- State after `insert 999 a`. -/
def dbS2 : DB := ⟨[p0Split, p1Split, p2S2]⟩

/-- Page 1 after `delete k254` (cell 127 zeroed, 127 cells left). -/
def p1D : Page := ⟨true, false, 0, 127, 0,
  (List.range 128).map (fun j => if j = 127 then zeroCell else kcell (127 + j))⟩

/-- State after `delete k254`. -/
def dbS3 : DB := ⟨[p0Split, p1D, p2S2]⟩

/-- Page 0 after `delete k253`: `leaf_redistribute` writes the key slot
of cell 1, one past the root's single valid key. -/
def p0D : Page := ⟨false, true, 0, 1, 1,
  (List.range 254).map (fun i => if i = 0 then le4 2 ++ pad12 (numKey 126)
    else if i = 1 then numKey 1 ++ pad12 (numKey 126) else kcell i)⟩

/-- Page 1 after `delete k253` and the buggy left-borrow redistribute:
the borrowed `k126` cell sits at slot 0, but the count stays 126, so
the last shifted cell (`k252`) falls outside the visible range — and
`k126` is now visible in two leaves. -/
def p1R : Page := ⟨true, false, 0, 126, 0,
  (List.range 128).map (fun j => if j = 0 then kcell 126
    else if j ≤ 126 then kcell (126 + j) else zeroCell)⟩

/-- State after `delete k253` (settled). -/
def dbS4 : DB := ⟨[p0D, p1R, p2S2]⟩

/-- The full statement list of the duplicate-`k126` run: 255 ascending
inserts, one small-key insert, two deletes, then `select k126`. -/
def c1cmds : List Cmd :=
  segIns 0 60 ++ (segIns 60 40 ++ (segIns 100 30 ++ (segIns 130 25 ++ (segIns 155 20 ++
    (segIns 175 20 ++ (segIns 195 18 ++ (segIns 213 16 ++ (segIns 229 14 ++ (segIns 243 11 ++
    ([Cmd.ins 254 (numKey 254)] ++ ([Cmd.ins 999 [97]] ++ ([Cmd.del (numKey 254)] ++
    ([Cmd.del (numKey 253)] ++ [Cmd.selKey (numKey 126)])))))))))))))

/-- The same statements without the final `select` (a settled
insert/delete sequence). -/
def c4cmds : List Cmd :=
  segIns 0 60 ++ (segIns 60 40 ++ (segIns 100 30 ++ (segIns 130 25 ++ (segIns 155 20 ++
    (segIns 175 20 ++ (segIns 195 18 ++ (segIns 213 16 ++ (segIns 229 14 ++ (segIns 243 11 ++
    ([Cmd.ins 254 (numKey 254)] ++ ([Cmd.ins 999 [97]] ++ ([Cmd.del (numKey 254)] ++
    [Cmd.del (numKey 253)]))))))))))))

/-- What the spec says `select K` must print: the `a` values of the
rows inserted with key `K` and not deleted since (a `delete b` removes
all rows with key `b`).  Written from the spec's words, to compare the
engine's output against. -/
def specAValsGo (K : List Byte) : List Nat → List Cmd → List Nat
  | acc, [] => acc
  | acc, .ins a b :: cs => specAValsGo K (if pad12 b = K then acc ++ [a] else acc) cs
  | acc, .del b :: cs => specAValsGo K (if pad12 b = K then [] else acc) cs
  | acc, .selKey _ :: cs => specAValsGo K acc cs
  | acc, .selAll :: cs => specAValsGo K acc cs

/-- The multiset of `a` values the spec expects from `select K` after
the given statements. -/
def specAVals (cmds : List Cmd) (K : List Byte) : List Nat := specAValsGo K [] cmds

/-- Running a concatenation = running the parts in sequence. -/
theorem runCmdsAppend (db : DB) (xs ys : List Cmd) :
    runCmds db (xs ++ ys)
      = (runCmds db xs).bind (fun p => (runCmds p.1 ys).map (fun q => (q.1, p.2 ++ q.2))) := by
  induction xs generalizing db with
  | nil =>
      simp only [List.nil_append, runCmds, Option.some_bind]
      cases h : runCmds db ys with
      | none => rfl
      | some q => simp
  | cons c cs ih =>
      simp only [List.cons_append, runCmds]
      cases he : execCmd db c with
      | none => rfl
      | some p =>
          simp only [Option.some_bind, List.append_eq, ih]
          cases h1 : runCmds p.1 cs with
          | none => simp
          | some r =>
              cases h2 : runCmds r.1 ys with
              | none => simp [h2]
              | some q => simp [h2, List.append_assoc]

/-- Chaining step: a segment that provably lands in `db'` with no output
can be peeled off the front of a run. -/
theorem runSeg {db db' : DB} {seg : List Cmd} (h : runCmds db seg = some (db', []))
    (rest : List Cmd) : runCmds db (seg ++ rest) = runCmds db' rest := by
  rw [runCmdsAppend, h]
  cases hr : runCmds db' rest with
  | none => simp [hr]
  | some q => simp [hr]

set_option maxHeartbeats 1000000000

theorem c1s0 : runCmds initialDB (segIns 0 60) = some (dbStage 60, []) := by decide
theorem c1s1 : runCmds (dbStage 60) (segIns 60 40) = some (dbStage 100, []) := by decide
theorem c1s2 : runCmds (dbStage 100) (segIns 100 30) = some (dbStage 130, []) := by decide
theorem c1s3 : runCmds (dbStage 130) (segIns 130 25) = some (dbStage 155, []) := by decide
theorem c1s4 : runCmds (dbStage 155) (segIns 155 20) = some (dbStage 175, []) := by decide
theorem c1s5 : runCmds (dbStage 175) (segIns 175 20) = some (dbStage 195, []) := by decide
theorem c1s6 : runCmds (dbStage 195) (segIns 195 18) = some (dbStage 213, []) := by decide
theorem c1s7 : runCmds (dbStage 213) (segIns 213 16) = some (dbStage 229, []) := by decide
theorem c1s8 : runCmds (dbStage 229) (segIns 229 14) = some (dbStage 243, []) := by decide
theorem c1s9 : runCmds (dbStage 243) (segIns 243 11) = some (dbStage 254, []) := by decide
theorem c1sSplit : runCmds (dbStage 254) [Cmd.ins 254 (numKey 254)] = some (dbSplit, []) := by decide
theorem c1sIns999 : runCmds dbSplit [Cmd.ins 999 [97]] = some (dbS2, []) := by decide
theorem c1sDel254 : runCmds dbS2 [Cmd.del (numKey 254)] = some (dbS3, []) := by decide
theorem c1sDel253 : runCmds dbS3 [Cmd.del (numKey 253)] = some (dbS4, []) := by decide
theorem c1sSel : runCmds dbS4 [Cmd.selKey (numKey 126)]
    = some (dbS4, [(126, numKey 126), (126, numKey 126)]) := by decide

/-- The composed duplicate-`k126` run. -/
theorem c1Chain : runCmds initialDB c1cmds
    = some (dbS4, [(126, numKey 126), (126, numKey 126)]) := by
  show runCmds initialDB (segIns 0 60 ++ _) = _
  rw [runSeg c1s0, runSeg c1s1, runSeg c1s2, runSeg c1s3, runSeg c1s4, runSeg c1s5,
    runSeg c1s6, runSeg c1s7, runSeg c1s8, runSeg c1s9, runSeg c1sSplit, runSeg c1sIns999,
    runSeg c1sDel254, runSeg c1sDel253]
  exact c1sSel

/-- The composed run without the final select. -/
theorem c4Chain : runCmds initialDB c4cmds = some (dbS4, []) := by
  show runCmds initialDB (segIns 0 60 ++ _) = _
  rw [runSeg c1s0, runSeg c1s1, runSeg c1s2, runSeg c1s3, runSeg c1s4, runSeg c1s5,
    runSeg c1s6, runSeg c1s7, runSeg c1s8, runSeg c1s9, runSeg c1sSplit, runSeg c1sIns999,
    runSeg c1sDel254]
  exact c1sDel253

/-! Supporting lemmas for the claims. -/

/-- Decoding the little-endian encoding of a `uint32_t` value returns it. -/
theorem fromLE4_le4 (a : Nat) (h : a < 4294967296) : fromLE4 (le4 a) = a := by
  have hv : fromLE4 (le4 a) = a % 256 + 256 * (a / 256 % 256) + 65536 * (a / 65536 % 256)
      + 16777216 * (a / 16777216 % 256) := rfl
  rw [hv]
  omega

/-- Padding a 12-byte buffer is the identity. -/
theorem pad12_of_length (l : List Byte) (h : l.length = 12) : pad12 l = l := by
  unfold pad12
  rw [List.take_append_of_le_length (by omega), ← h, List.take_length]

/-- The tie-walk never moves right by more than one position. -/
theorem walkLeft_le (keyAt : Nat → List Byte) (key : List Byte) (i : Nat) :
    walkLeft keyAt key i ≤ i + 1 := by
  induction i with
  | zero => unfold walkLeft; split <;> omega
  | succ n ih => unfold walkLeft; split <;> omega

/-- The binary-search loop stays inside its interval. -/
theorem findLoop_le (keyAt : Nat → List Byte) (key : List Byte) (fuel : Nat) :
    ∀ mn mx, mn ≤ mx → findLoop keyAt key fuel mn mx ≤ mx := by
  induction fuel with
  | zero => intro mn mx h; exact h
  | succ n ih =>
      intro mn mx h
      unfold findLoop
      by_cases he : mn = mx
      · simp [he]
      · rw [if_neg he]
        have hlt : mn < mx := by omega
        have h1 : mn ≤ (mn + mx) / 2 := by omega
        have h2 : (mn + mx) / 2 < mx := by omega
        dsimp only
        cases hc : cstrcmp key (keyAt ((mn + mx) / 2)) with
        | eq =>
            show walkLeft keyAt key ((mn + mx) / 2) ≤ mx
            have := walkLeft_le keyAt key ((mn + mx) / 2)
            omega
        | lt =>
            show findLoop keyAt key n mn ((mn + mx) / 2) ≤ mx
            have := ih mn ((mn + mx) / 2) h1
            omega
        | gt =>
            show findLoop keyAt key n ((mn + mx) / 2 + 1) mx ≤ mx
            exact ih ((mn + mx) / 2 + 1) mx (by omega)

/-- `leaf_node_find` returns an index between 0 and `num_cells`. -/
theorem leafNodeFindIdx_le (p : Page) (key : List Byte) :
    leafNodeFindIdx p key ≤ p.count :=
  findLoop_le (leafNodeKey p) key (p.count + 1) 0 p.count (Nat.zero_le _)

/-- When the probe key compares greater than every key of the interval,
the binary search lands at the upper end. -/
theorem findLoop_all_gt (keyAt : Nat → List Byte) (key : List Byte) (fuel : Nat) :
    ∀ mn mx, mn ≤ mx → mx - mn ≤ fuel →
      (∀ i, mn ≤ i → i < mx → cstrcmp key (keyAt i) = .gt) →
      findLoop keyAt key fuel mn mx = mx := by
  induction fuel with
  | zero =>
      intro mn mx h1 h2 _
      have : mn = mx := by omega
      simp [findLoop, this]
  | succ n ih =>
      intro mn mx h1 h2 h3
      unfold findLoop
      by_cases he : mn = mx
      · simp [he]
      · rw [if_neg he]
        have hlt : mn < mx := by omega
        dsimp only
        rw [h3 ((mn + mx) / 2) (by omega) (by omega)]
        show findLoop keyAt key n ((mn + mx) / 2 + 1) mx = mx
        exact ih ((mn + mx) / 2 + 1) mx (by omega) (by omega)
          (fun i hi1 hi2 => h3 i (by omega) hi2)

/-- A key strictly above every stored key is positioned at `num_cells`. -/
theorem leafNodeFindIdx_all_gt (p : Page) (key : List Byte)
    (h : ∀ i < p.count, cstrcmp key (leafNodeKey p i) = .gt) :
    leafNodeFindIdx p key = p.count :=
  findLoop_all_gt (leafNodeKey p) key (p.count + 1) 0 p.count (Nat.zero_le _)
    (by omega) (fun i _ hi => h i hi)

/-- Any cursor produced by `internal_node_find` points into a page read
as a leaf, at the index `leaf_node_find` computes, with the modelled
`end_of_table` false. -/
theorem internalNodeFind_spec (db : DB) (key : List Byte) :
    ∀ fuel pg c, internalNodeFind db key fuel pg = some c →
      (getPage db c.pageNum).isLeaf = true
      ∧ c.cellNum = leafNodeFindIdx (getPage db c.pageNum) key
      ∧ c.endOfTable = false := by
  intro fuel
  induction fuel with
  | zero => intro pg c h; simp [internalNodeFind] at h
  | succ n ih =>
      intro pg c h
      unfold internalNodeFind at h
      dsimp only at h
      cases h1 : internalNodeFindChild (getPage db pg) key with
      | none => rw [h1] at h; simp at h
      | some ci =>
          rw [h1] at h
          dsimp only at h
          cases h2 : internalNodeChild (getPage db pg) ci with
          | none => rw [h2] at h; simp at h
          | some cp =>
              rw [h2] at h
              dsimp only at h
              by_cases hl : (getPage db cp).isLeaf
              · rw [if_pos hl] at h
                cases h
                exact ⟨hl, rfl, rfl⟩
              · rw [if_neg hl] at h
                exact ih cp c h

/-- Same facts for `table_find`. -/
theorem tableFind_spec (db : DB) (key : List Byte) (fuel : Nat) (c : Cursor)
    (h : tableFind db key fuel = some c) :
    (getPage db c.pageNum).isLeaf = true
    ∧ c.cellNum = leafNodeFindIdx (getPage db c.pageNum) key
    ∧ c.endOfTable = false := by
  unfold tableFind at h
  by_cases hl : (getPage db 0).isLeaf
  · rw [if_pos hl] at h
    cases h
    exact ⟨hl, rfl, rfl⟩
  · rw [if_neg hl] at h
    exact internalNodeFind_spec db key fuel 0 c h

def appleTok : List Byte := [97, 112, 112, 108, 101]

/-- C1 (code_bug).  The spec's search-correctness property fails: after
255 ascending inserts, `insert 999 a`, `delete k254` and `delete k253`
(one row with key `k126` inserted, none with that key deleted),
`select k126` prints the `a` value 126 twice — the underflow of the
rightmost leaf borrows from the left sibling through
`leaf_redistribute`'s left-branch, which updates neither leaf's cell
count, so the borrowed `k126` cell becomes visible in both leaves. -/
theorem c1_select_multiset_mismatch :
    (runCmds initialDB c1cmds).map (fun p => p.2.map Prod.fst) = some [126, 126]
    ∧ specAVals c1cmds (pad12 (numKey 126)) = [126]
    ∧ (([126, 126] : List Nat) : Multiset Nat) ≠ (([126] : List Nat) : Multiset Nat) := by
  refine ⟨?_, by decide, by decide⟩
  rw [c1Chain]
  rfl

/-- C4 (code_bug).  After the same settled insert/delete sequence, page 1
is a non-root leaf holding 126 cells, below the required
`LEAF_NODE_MIN_CELLS = MAX_CELLS / 2 = 127`: the buggy left-borrow
redistribute leaves the underfull leaf's count unchanged. -/
theorem c4_nonroot_leaf_underflow :
    (runCmds initialDB c4cmds).map
        (fun p => ((getPage p.1 1).isLeaf, (getPage p.1 1).isRoot, (getPage p.1 1).count))
      = some (true, false, 126)
    ∧ 126 < LEAF_NODE_MIN_CELLS := by
  refine ⟨?_, by decide⟩
  rw [c4Chain]
  rfl

/-- C3 (code_bug).  `table_start` probes for the key `"0"`, so for a
table holding the single row `(1, "!")` (whose key is below `"0"` in
byte order) the cursor starts one past the stored cell: the bare
`select` prints the stale zero cell `(0, "")` and never visits the
stored row, although the row is present in the page. -/
theorem c3_traverse_skips_row_below_zero :
    (runCmds initialDB [.ins 1 [33], .selAll]).map (fun p => p.2) = some [(0, [])]
    ∧ (runCmds initialDB [.ins 1 [33], .selAll]).map
        (fun p => ((getPage p.1 0).count, cellAt (getPage p.1 0) 0))
      = some (1, pad12 [33] ++ le4 1)
    ∧ [((0 : Nat), ([] : List Byte))] ≠ [(1, [33])] :=
  ⟨by decide, by decide, by decide⟩

/-- The crafted state for C5: an internal root (1 key `m`) over two
internal children — page 2 (children: leaves 4 and 5) and the underfull
rightmost page 3 (child: leaf 6).  Deleting a key above `m` underflows
page 3 and merges it with page 2, collapsing the root. -/
def c5db : DB := ⟨[
  ⟨false, true, 0, 1, 3, [le4 2 ++ pad12 [109]]⟩,
  zeroPage,
  ⟨false, false, 0, 1, 5, [le4 4 ++ pad12 [102]]⟩,
  ⟨false, false, 0, 0, 6, []⟩,
  ⟨true, false, 2, 1, 0, [kcell 0]⟩,
  ⟨true, false, 2, 1, 0, [kcell 1]⟩,
  ⟨true, false, 3, 1, 0, [kcell 2]⟩]⟩

/-- C5 (code_bug).  The root-collapse branch of `internalnode_merge`
re-points only the rightmost child's parent: after the collapse the
surviving node sits in page 0 with child page 4 in its cell 0 and child
page 6 as rightmost, but page 4's parent field still names the dead
sibling page 2 instead of 0 (the re-pointing loop's bound is the old
root's key count, which is 0). -/
theorem c5_collapse_keeps_stale_parent :
    (mergeOrRedistribute c5db 3 (pad12 [122]) 3).map (fun p =>
        ((getPage p.2 0).isRoot, (getPage p.2 0).isLeaf, (getPage p.2 0).count,
         internalCellChild (getPage p.2 0) 0, (getPage p.2 4).parent,
         (getPage p.2 6).parent))
      = some (true, false, 2, 4, 2, 0)
    ∧ (2 : Nat) ≠ 0 :=
  ⟨by decide, by decide⟩

/-- C6 counterexample.  The left split count is not the ceiling of
`(MAX_CELLS + 1) / 2`: the code computes the floor
(`(254 + 1) / 2 = 127`, while the ceiling is 128). -/
theorem c6_left_split_not_ceiling :
    ¬ LEAF_NODE_LEFT_SPLIT_COUNT = (LEAF_NODE_MAX_CELLS + 1 + 1) / 2 := by decide

/-- C6 amended.  The layout constants as the code computes them: both
max-cell counts are `floor((4096 - 14) / 16) - 1 = 254`,
`LEFT_SPLIT_COUNT` is the floor `(MAX + 1) / 2 = 127`,
`RIGHT_SPLIT_COUNT = (MAX + 1) - LEFT = 128`, and
`MIN_CELLS = MAX / 2 = 127`. -/
theorem c6_constants :
    LEAF_NODE_MAX_CELLS = (4096 - 14) / 16 - 1
    ∧ LEAF_NODE_MAX_CELLS = 254
    ∧ INTERNAL_NODE_MAX_CELLS = (4096 - 14) / 16 - 1
    ∧ INTERNAL_NODE_MAX_CELLS = 254
    ∧ LEAF_NODE_LEFT_SPLIT_COUNT = (LEAF_NODE_MAX_CELLS + 1) / 2
    ∧ LEAF_NODE_LEFT_SPLIT_COUNT = 127
    ∧ LEAF_NODE_RIGHT_SPLIT_COUNT = (LEAF_NODE_MAX_CELLS + 1) - LEAF_NODE_LEFT_SPLIT_COUNT
    ∧ LEAF_NODE_RIGHT_SPLIT_COUNT = 128
    ∧ LEAF_NODE_MIN_CELLS = LEAF_NODE_MAX_CELLS / 2
    ∧ LEAF_NODE_MIN_CELLS = 127 := by decide

/-- A full leaf of 254 ascending keys `k000 … k253`, for C7. -/
def node254 : Page := ⟨true, true, 0, 254, 0, (List.range 254).map kcell⟩

/-- The incoming cell used in the C7 counterexample: row `(777, k253)`,
whose key equals the leaf's maximum. -/
def incoming253 : List Byte := pad12 (numKey 253) ++ le4 777

/-- C7 counterexample.  For a full leaf and an incoming key `k253` that
is greater than OR EQUAL to every stored key (it equals the max), the
split places the incoming cell at index `RIGHT_SPLIT_COUNT - 2` of the
new right leaf, not at `RIGHT_SPLIT_COUNT - 1`: the duplicate-leftmost
search positions the cursor at 253, one before the end. -/
theorem c7_equal_max_misplaced :
    (∀ i < node254.count, cstrcmp (pad12 (numKey 253)) (leafNodeKey node254 i) ≠ .lt)
    ∧ node254.count = LEAF_NODE_MAX_CELLS
    ∧ leafNodeFindIdx node254 (pad12 (numKey 253)) = 253
    ∧ cellAt (splitNewLeafPage node254 (leafNodeFindIdx node254 (pad12 (numKey 253)))
          incoming253) (LEAF_NODE_RIGHT_SPLIT_COUNT - 1) ≠ incoming253
    ∧ cellAt (splitNewLeafPage node254 (leafNodeFindIdx node254 (pad12 (numKey 253)))
          incoming253) (LEAF_NODE_RIGHT_SPLIT_COUNT - 2) = incoming253 := by
  refine ⟨by decide, by decide, by decide, by decide, by decide⟩

/-- C7 amended.  For every leaf at `MAX_CELLS` capacity, inserting a row
whose key is STRICTLY greater than every key in the leaf positions the
cursor at `MAX_CELLS`, triggers the split (`leaf_node_insert` takes the
split branch), and the split places the incoming cell at index
`RIGHT_SPLIT_COUNT - 1` of the newly written right leaf, with the old
leaf keeping `LEFT_SPLIT_COUNT` cells and the new leaf
`RIGHT_SPLIT_COUNT` cells. -/
theorem c7_strict_max_split_placement (node : Page) (key : List Byte) (row : Row)
    (hfull : node.count = LEAF_NODE_MAX_CELLS)
    (hgt : ∀ i < node.count, cstrcmp key (leafNodeKey node i) = .gt) :
    leafNodeFindIdx node key = LEAF_NODE_MAX_CELLS
    ∧ (splitNewLeafPage node LEAF_NODE_MAX_CELLS (pad12 key ++ le4 row.a)).count
        = LEAF_NODE_RIGHT_SPLIT_COUNT
    ∧ cellAt (splitNewLeafPage node LEAF_NODE_MAX_CELLS (pad12 key ++ le4 row.a))
        (LEAF_NODE_RIGHT_SPLIT_COUNT - 1) = pad12 key ++ le4 row.a
    ∧ (∀ newPg, (splitOldLeafPage node LEAF_NODE_MAX_CELLS (pad12 key ++ le4 row.a)
        newPg).count = LEAF_NODE_LEFT_SPLIT_COUNT)
    ∧ (∀ (db : DB) (cur : Cursor) (fuel : Nat), getPage db cur.pageNum = node →
        leafNodeInsert db cur key row fuel = leafNodeSplitAndInsert db cur key row fuel) := by
  refine ⟨?_, rfl, rfl, fun _ => rfl, ?_⟩
  · rw [leafNodeFindIdx_all_gt node key hgt, hfull]
  · intro db cur fuel h
    unfold leafNodeInsert
    rw [h]
    dsimp only
    rw [hfull]
    simp

theorem c7_strict_max_split_placement_witness :
    node254.count = LEAF_NODE_MAX_CELLS
    ∧ (∀ i < node254.count,
        cstrcmp (pad12 (numKey 254)) (leafNodeKey node254 i) = .gt)
    ∧ leafNodeFindIdx node254 (pad12 (numKey 254)) = LEAF_NODE_MAX_CELLS
    ∧ cellAt (splitNewLeafPage node254 LEAF_NODE_MAX_CELLS
        (pad12 (pad12 (numKey 254)) ++ le4 254)) (LEAF_NODE_RIGHT_SPLIT_COUNT - 1)
      = pad12 (pad12 (numKey 254)) ++ le4 254 :=
  ⟨by decide, by decide,
    (c7_strict_max_split_placement node254 (pad12 (numKey 254)) ⟨254, numKey 254⟩
      (by decide) (by decide)).1,
    (c7_strict_max_split_placement node254 (pad12 (numKey 254)) ⟨254, numKey 254⟩
      (by decide) (by decide)).2.2.1⟩

/-- C8 (confirmed).  `serialize_row` writes the 12 bytes of `b` at
offset 0 and the 4 little-endian bytes of `a` at offset 12 of the
16-byte cell, and `deserialize_row` inverts it. -/
theorem c8_row_roundtrip (r : Row) (hb : r.b.length = 12) (ha : r.a < 4294967296) :
    deserializeRow (serializeRow r) = r
    ∧ (serializeRow r).take 12 = r.b
    ∧ (serializeRow r).drop 12 = le4 r.a
    ∧ (serializeRow r).length = 16 := by
  have hpad : pad12 r.b = r.b := pad12_of_length r.b hb
  have htake : (serializeRow r).take 12 = r.b := by
    unfold serializeRow
    rw [hpad, List.take_append_of_le_length (by omega), ← hb, List.take_length]
  have hdrop : (serializeRow r).drop 12 = le4 r.a := by
    unfold serializeRow
    rw [hpad, ← hb, List.drop_left]
  refine ⟨?_, htake, hdrop, ?_⟩
  · unfold deserializeRow
    rw [hdrop, htake]
    have h4 : (le4 r.a).take 4 = le4 r.a := rfl
    rw [h4, fromLE4_le4 r.a ha]
  · unfold serializeRow
    rw [hpad]
    simp [le4, hb]

theorem c8_row_roundtrip_witness :
    (Row.mk 5 (pad12 [104, 105])).b.length = 12
    ∧ (Row.mk 5 (pad12 [104, 105])).a < 4294967296
    ∧ deserializeRow (serializeRow (Row.mk 5 (pad12 [104, 105]))) = Row.mk 5 (pad12 [104, 105]) :=
  ⟨by decide, by decide,
    (c8_row_roundtrip (Row.mk 5 (pad12 [104, 105])) (by decide) (by decide)).1⟩

/-- C9 (confirmed).  If the leaf the lookup lands in holds no cell whose
key compares equal to `K` — which is the case whenever no stored row has
key `K` — then `delete K` returns the state unchanged: `leaf_node_delete`
refuses (mismatching key, empty leaf, or one-past-the-end index) before
touching any page, and the delete loop stops. -/
theorem c9_delete_absent_noop (db : DB) (key : List Byte)
    (findFuel mrFuel loopFuel : Nat) (c : Cursor)
    (hf : tableFind db key findFuel = some c)
    (habsent : ∀ i < (getPage db c.pageNum).count,
      cstrcmp (leafNodeKey (getPage db c.pageNum) i) key ≠ .eq) :
    bTreeDelete db key findFuel mrFuel (loopFuel + 1) = some db := by
  obtain ⟨hleaf, hcell, hend⟩ := tableFind_spec db key findFuel c hf
  have hle : c.cellNum ≤ (getPage db c.pageNum).count := by
    rw [hcell]; exact leafNodeFindIdx_le _ _
  have hguard : cstrcmp (leafNodeKey (getPage db c.pageNum) c.cellNum) key ≠ .eq
      ∨ (getPage db c.pageNum).count = 0 ∨ c.cellNum = (getPage db c.pageNum).count := by
    by_cases he : c.cellNum = (getPage db c.pageNum).count
    · exact Or.inr (Or.inr he)
    · exact Or.inl (habsent c.cellNum (by omega))
  have hDel : leafNodeDelete db c.pageNum c.cellNum key mrFuel = some (false, db) := by
    unfold leafNodeDelete
    dsimp only
    rw [if_pos hguard]
  unfold bTreeDelete
  rw [hf]
  dsimp only
  rw [hend]
  simp only [Bool.false_eq_true, if_false]
  rw [hDel]

theorem c9_delete_absent_noop_witness :
    tableFind initialDB (pad12 [120]) 1 = some ⟨0, 0, false⟩
    ∧ bTreeDelete initialDB (pad12 [120]) 1 1 1 = some initialDB :=
  ⟨by decide,
    c9_delete_absent_noop initialDB (pad12 [120]) 1 1 0 ⟨0, 0, false⟩ (by decide)
      (by decide)⟩

/-- C10 (confirmed).  `prepare_insert` never rejects a non-numeric `a`
token as a syntax error: any token pair is accepted whenever
`atoi(a) ≥ 0` (a non-numeric token parses to 0) and `b` fits, storing
`atoi(a)` in the row; only a token parsing negative is rejected with the
negative-value error. -/
theorem c10_insert_accepts_atoi (aTok bTok : List Byte) (hb : cstrlen bTok ≤ 11) :
    (0 ≤ catoi aTok →
      prepareInsert (some aTok) (some bTok)
        = (.success, ⟨(catoi aTok).toNat, pad12 bTok⟩))
    ∧ (catoi aTok < 0 → (prepareInsert (some aTok) (some bTok)).1 = .negativeValue) := by
  constructor
  · intro h
    unfold prepareInsert
    dsimp only
    rw [if_neg (show ¬ catoi aTok < 0 by omega),
      if_neg (show ¬ cstrlen bTok > 11 by omega)]
  · intro h
    unfold prepareInsert
    dsimp only
    rw [if_pos h]

theorem c10_insert_accepts_atoi_witness :
    cstrlen appleTok ≤ 11
    ∧ (0 : Int) ≤ catoi appleTok
    ∧ catoi appleTok = 0
    ∧ prepareInsert (some appleTok) (some appleTok)
        = (.success, ⟨(catoi appleTok).toNat, pad12 appleTok⟩) :=
  ⟨by decide, by decide, by decide,
    (c10_insert_accepts_atoi appleTok appleTok (by decide)).1 (by decide)⟩

end Myjql
